import Mathlib

/-!
A shallow embedding of the request-routing and middleware-composition core of
the `roa` web framework (files `src/router.rs`, `roa-core/src/app.rs`,
`roa-core/src/context.rs`), together with theorems settling the specification
claims about dispatch, conflict detection, middleware ordering and the
application shell's error handling.
-/

namespace Roa

/-- HTTP methods, mirroring `http::Method`: the nine standard methods plus
extension methods (arbitrary tokens), which `http::Method::from_bytes` admits. -/
inductive Method where
  | GET | POST | PUT | PATCH | OPTIONS | DELETE | HEAD | TRACE | CONNECT
  | EXT (name : String)
deriving DecidableEq, Repr

/-- The `ALL_METHODS` constant of `src/router.rs`. -/
def ALL_METHODS : List Method :=
  [.GET, .POST, .PUT, .PATCH, .OPTIONS, .DELETE, .HEAD, .TRACE, .CONNECT]

/-- Display of a method, as used by `format!("method {} is not allowed", m)`. -/
def Method.show : Method → String
  | .GET => "GET" | .POST => "POST" | .PUT => "PUT" | .PATCH => "PATCH"
  | .OPTIONS => "OPTIONS" | .DELETE => "DELETE" | .HEAD => "HEAD"
  | .TRACE => "TRACE" | .CONNECT => "CONNECT" | .EXT s => s

/-- Modelled from the spec: the error kind enum `{Client, Server}` of the
error shape crossing the boundary (spec section 6); the roa-core error module
is not under src/. -/
inductive ErrorKind where
  | ClientError
  | ServerError
deriving DecidableEq, Repr, BEq

/-- The `roa_core::Error` shape: status code, message, exposable flag
(spec section 6; constructed in src via `Error::new(status, message, expose)`). -/
structure Error where
  status_code : Nat
  message : String
  expose : Bool
deriving DecidableEq, Repr

/-- `Error::new(status, message, expose)` as called in `src/router.rs`. -/
def Error.new (status : Nat) (message : String) (expose : Bool) : Error :=
  ⟨status, message, expose⟩

/-- Modelled from the spec: the kind classification of an error, derived from
its status code (5xx are server errors, everything else client-side);
the roa-core error module is not under src/. -/
def Error.kind (e : Error) : ErrorKind :=
  if 500 ≤ e.status_code then .ServerError else .ClientError

/-- Modelled from the spec: `Error::need_throw`, used by `HttpService::serve`;
per the `error_handler` documentation in `src/lib.rs`, an error is re-raised
to the transport exactly when its kind is `ServerError`. -/
def Error.need_throw (e : Error) : Bool :=
  decide (e.kind = ErrorKind.ServerError)

/-- Modelled from the spec: the `throw!` macro producing an exposable error
from a status code and message (client errors are safe to expose). -/
def throwErr (status : Nat) (msg : String) : Error :=
  ⟨status, msg, true⟩

/-! ### Bytes, percent-decoding and UTF-8 validation

`RouteTable::end` runs `percent_decode_str(uri.path()).decode_utf8()` before
any matching; we model the raw path as its UTF-8 bytes, percent-decoding as
byte substitution and `decode_utf8` as strict UTF-8 validation. -/

/-- UTF-8 encoding of a single character. -/
def utf8EncodeChar (c : Char) : List Nat :=
  let n := c.toNat
  if n < 128 then [n]
  else if n < 2048 then [192 + n / 64, 128 + n % 64]
  else if n < 65536 then [224 + n / 4096, 128 + (n / 64) % 64, 128 + n % 64]
  else [240 + n / 262144, 128 + (n / 4096) % 64, 128 + (n / 64) % 64, 128 + n % 64]

/-- The bytes of a string (what `uri.path()` exposes to `percent_decode_str`). -/
def strBytes (s : String) : List Nat :=
  (s.data.map utf8EncodeChar).flatten

/-- Value of a hexadecimal digit byte, if it is one. -/
def hexDigit (b : Nat) : Option Nat :=
  if 48 ≤ b ∧ b ≤ 57 then some (b - 48)
  else if 65 ≤ b ∧ b ≤ 70 then some (b - 55)
  else if 97 ≤ b ∧ b ≤ 102 then some (b - 87)
  else none

/-- `percent_encoding::percent_decode`: a `%` followed by two hex digits
decodes to one byte; any other byte (a lone `%` included) passes through. -/
def percentDecode : List Nat → List Nat
  | [] => []
  | 37 :: h1 :: h2 :: rest =>
    match hexDigit h1, hexDigit h2 with
    | some a, some b => (16 * a + b) :: percentDecode rest
    | _, _ => 37 :: percentDecode (h1 :: h2 :: rest)
  | b :: rest => b :: percentDecode rest

/-- Is a byte a UTF-8 continuation byte (`10xxxxxx`)? -/
def isCont (b : Nat) : Bool :=
  128 ≤ b && b < 192

/-- Strict UTF-8 validation and decoding of a byte list, as `decode_utf8`
performs: rejects overlong forms, surrogates and out-of-range code points. -/
def utf8Decode : List Nat → Option (List Char)
  | [] => some []
  | b1 :: t1 =>
    if b1 < 128 then (utf8Decode t1).map (fun cs => Char.ofNat b1 :: cs)
    else if b1 < 194 then none
    else if b1 < 224 then
      match t1 with
      | b2 :: t2 =>
        if isCont b2 then
          (utf8Decode t2).map (fun cs => Char.ofNat ((b1 - 192) * 64 + (b2 - 128)) :: cs)
        else none
      | [] => none
    else if b1 < 240 then
      match t1 with
      | b2 :: b3 :: t3 =>
        let cp := (b1 - 224) * 4096 + (b2 - 128) * 64 + (b3 - 128)
        if isCont b2 && isCont b3 && decide (2048 ≤ cp) &&
            !(decide (55296 ≤ cp) && decide (cp < 57344)) then
          (utf8Decode t3).map (fun cs => Char.ofNat cp :: cs)
        else none
      | _ => none
    else if b1 < 245 then
      match t1 with
      | b2 :: b3 :: b4 :: t4 =>
        let cp := (b1 - 240) * 262144 + (b2 - 128) * 4096 + (b3 - 128) * 64 + (b4 - 128)
        if isCont b2 && isCont b3 && isCont b4 && decide (65536 ≤ cp) &&
            decide (cp < 1114112) then
          (utf8Decode t4).map (fun cs => Char.ofNat cp :: cs)
        else none
      | _ => none
    else none

/-! ### Router path model

Modelled from the spec (section 4.3): the `router/path.rs` module
(`Path`, `RegexPath`, `standardize_path`, `join_path`) is not under src/.
Registration paths are split into `/`-delimited segments; a segment beginning
with the `:` sigil is a named variable; all-literal paths collapse to
`Static`. Paths are normalized to exactly one leading slash and no trailing
slash except the root. -/

/-- A segment of a dynamic path pattern: a literal or a named variable. -/
inductive Segment where
  | lit (s : String)
  | var (name : String)
deriving DecidableEq, Repr

/-- Modelled from the spec: a compiled dynamic pattern — the segment list
(standing for the anchored regex with one named capture per variable) and
the declared variable names, in order of appearance. -/
structure RegexPath where
  segments : List Segment
  vars : List String
deriving DecidableEq, Repr

/-- Modelled from the spec: a parsed registration path —
`Static(string)` or `Dynamic(compiled pattern)`. -/
inductive Path where
  | static (path : String)
  | dynamic (rp : RegexPath)
deriving DecidableEq, Repr

/-- Split a character list on `/`, dropping empty segments. -/
def splitSegsAux : List Char → List Char → List (List Char)
  | [], acc => if acc = [] then [] else [acc.reverse]
  | c :: rest, acc =>
    if c = '/' then
      if acc = [] then splitSegsAux rest [] else acc.reverse :: splitSegsAux rest []
    else splitSegsAux rest (c :: acc)

/-- The nonempty `/`-delimited segments of a path string. -/
def pathSegments (s : String) : List String :=
  (splitSegsAux s.data []).map String.mk

/-- Modelled from the spec: `standardize_path` — exactly one leading slash,
no trailing slash except the root. -/
def standardize_path (s : String) : String :=
  match pathSegments s with
  | [] => "/"
  | segs => segs.foldl (fun acc seg => acc ++ "/" ++ seg) ""

/-- Modelled from the spec: `join_path` — concatenate path pieces and
re-normalize. -/
def join_path (ps : List String) : String :=
  standardize_path (ps.foldl (fun acc p => acc ++ "/" ++ p) "")

/-- Does a segment begin with the variable sigil `:`? -/
def isVarSeg (seg : String) : Bool :=
  match seg.data with
  | c :: _ => c = ':'
  | [] => false

/-- The variable name of a `:name` segment (the text after the sigil). -/
def varOfSeg (seg : String) : String :=
  String.mk seg.data.tail

/-- Parse one registration segment. -/
def parseSegment (seg : String) : Segment :=
  if isVarSeg seg then .var (varOfSeg seg) else .lit seg

/-- Modelled from the spec: parsing a raw registration path into `Static`
(normalized string) or `Dynamic` (compiled pattern with its variable names). -/
def parsePath (raw : String) : Path :=
  let segs := pathSegments raw
  if segs.all (fun seg => !isVarSeg seg) then .static (standardize_path raw)
  else .dynamic ⟨segs.map parseSegment, (segs.filter isVarSeg).map varOfSeg⟩

/-- Match pattern segments against path segments: literals must be equal,
each variable captures its segment under its name. -/
def matchSegs : List Segment → List String → Option (List (String × String))
  | [], [] => some []
  | .lit s :: rest, seg :: segs =>
    if seg = s then matchSegs rest segs else none
  | .var n :: rest, seg :: segs =>
    (matchSegs rest segs).map (fun caps => (n, seg) :: caps)
  | _, _ => none

/-- Modelled from the spec: `re.captures(&path)` — the anchored match of a
compiled dynamic pattern against a standardized path, yielding the named
captures on success. -/
def RegexPath.captures (rp : RegexPath) (path : String) :
    Option (List (String × String)) :=
  matchSegs rp.segments (pathSegments path)

/-- Value of a named capture, as `cap[var.as_str()]` reads it. -/
def capGet (caps : List (String × String)) (name : String) : String :=
  ((caps.find? (fun c => c.1 = name)).map (fun c => c.2)).getD ""

/-! ### Context, responses and middleware

The `Context` is the per-request shared handle (request method and target,
response under construction, key-value store). Shared mutation through the
reference-counted handle is embedded as explicit state passing: a middleware
receives the context state and a continuation and produces either a final
state or an error paired with the state at the point of failure. -/

/-- The response under construction (`roa_core::Response`): status and body.
A fresh response has status 200 OK and an empty body. -/
structure Response where
  status : Nat
  body : String
deriving DecidableEq, Repr

/-- The namespace tag under which the router stores its variables
(`struct RouterSymbol` in `src/router.rs`). -/
def routerSymbol : String := "RouterSymbol"

/-- Per-request context: method, raw request path, the request-scoped
key-value store (namespace, name, value — most recent first) and the
response under construction. -/
structure Ctx where
  method : Method
  rawPath : String
  kvStore : List (String × String × String)
  resp : Response
deriving DecidableEq, Repr

/-- Modelled from the spec: `Context::store::<Symbol>(name, value)` — the
request-scoped store is namespaced by a symbol type so unrelated features
cannot collide (spec section 4.1); the store methods are not under src/. -/
def Ctx.storeVar (ctx : Ctx) (sym name value : String) : Ctx :=
  { ctx with kvStore := (sym, name, value) :: ctx.kvStore }

/-- Modelled from the spec: `Context::load::<Symbol>(name)` — the most recent
value stored under this namespace and name, or "not found". -/
def Ctx.load (ctx : Ctx) (sym name : String) : Option String :=
  ((ctx.kvStore.find? (fun e => e.1 = sym ∧ e.2.1 = name)).map (fun e => e.2.2))

/-- Outcome of running a middleware on a context: the final context, or an
error together with the context state at the point of failure (the shared
handle keeps its mutations when a layer errors). -/
abbrev MRes (σ : Type) := Except (Error × σ) σ

/-- A middleware over context type `σ`: given the context and a continuation
(`next`), produce an outcome, invoking `next` zero or one times. -/
abbrev Middleware (σ : Type) := σ → (σ → MRes σ) → MRes σ

/-- Modelled from the spec: `join(a, b)` — the composed middleware whose
`next` of `a` invokes `b` (the onion model, spec section 4.2); the roa-core
middleware module is not under src/. -/
def join {σ : Type} (a b : Middleware σ) : Middleware σ :=
  fun ctx next => a ctx (fun c => b c next)

/-- Modelled from the spec: `join_all(list)` — the right-fold of `join` over
the list, the empty list producing a middleware that immediately invokes its
own `next` (spec section 4.2). -/
def join_all {σ : Type} (ms : List (Middleware σ)) : Middleware σ :=
  ms.foldr join (fun ctx next => next ctx)

/-- Modelled from the spec: `Middleware::end(ctx)` — run a middleware with
the terminating `next`, one that does nothing (spec section 4.5). -/
def mwEnd {σ : Type} (m : Middleware σ) (ctx : σ) : MRes σ :=
  m ctx (fun c => .ok c)

/-! ### Route tables and dispatch (`src/router.rs`) -/

/-- Build-time router errors; `Conflict::Path` names the conflicting
normalized static path (the `router/err.rs` module is not under src/, its
conflict variant is named by `RouteTable::insert`). -/
inductive RouterError where
  | conflict (path : String)
deriving DecidableEq, Repr

/-- The per-method `RouteTable`: the static exact-match index (the radix
trie, embedded as an association list keyed by the normalized path, which is
faithful for its exact `get`/`insert` uses) and the ordered dynamic list. -/
structure RouteTable where
  static_route : List (String × Middleware Ctx)
  dynamic_route : List (RegexPath × Middleware Ctx)

/-- `RouteTable::new`. -/
def RouteTable.new : RouteTable := ⟨[], []⟩

/-- Exact lookup in the static index (`Trie::get`). -/
def trieGet {α : Type} (t : List (String × α)) (k : String) : Option α :=
  (t.find? (fun e => e.1 = k)).map (fun e => e.2)

/-- `RouteTable::insert`: parse the raw path; a static path already present
is a conflict error naming the path; a dynamic pattern is appended to the
dynamic list in registration order. -/
def RouteTable.insert (t : RouteTable) (raw_path : String)
    (endpoint : Middleware Ctx) : Except RouterError RouteTable :=
  match parsePath raw_path with
  | .static p =>
    if (trieGet t.static_route p).isSome then .error (.conflict p)
    else .ok { t with static_route := (p, endpoint) :: t.static_route }
  | .dynamic rp => .ok { t with dynamic_route := t.dynamic_route ++ [(rp, endpoint)] }

/-- Store every named capture of a matched dynamic pattern into the context's
router-variable namespace (the `for var in regexp_path.vars` loop). -/
def storeCaps (ctx : Ctx) (rp : RegexPath) (caps : List (String × String)) : Ctx :=
  rp.vars.foldl (fun c v => c.storeVar routerSymbol v (capGet caps v)) ctx

/-- The dynamic scan of `RouteTable::end`: first pattern whose matcher
succeeds wins, its captures stored before the handler runs; otherwise 404. -/
def dynScan : List (RegexPath × Middleware Ctx) → String → Ctx → MRes Ctx
  | [], _, ctx => .error (throwErr 404 "", ctx)
  | (rp, h) :: rest, path, ctx =>
    match rp.captures path with
    | some caps => mwEnd h (storeCaps ctx rp caps)
    | none => dynScan rest path ctx

/-- Modelled from the spec: the display of the `Utf8Error` interpolated into
the 400 message is abstracted as a fixed phrase. -/
def utf8ErrorDisplay : String := "invalid utf-8 sequence"

/-- The 400 message of `RouteTable::end`:
`format!("{}\npath `{}` is not a valid utf-8 string", err, uri.path())`. -/
def invalidPathMessage (raw : String) : String :=
  utf8ErrorDisplay ++ "\npath `" ++ raw ++ "` is not a valid utf-8 string"

/-- `RouteTable::end`: percent-decode and UTF-8-validate the raw request path
(400 on failure, naming the raw path), standardize it, try the static index,
then the dynamic list, else 404. -/
def RouteTable.endOn (t : RouteTable) (ctx : Ctx) : MRes Ctx :=
  match utf8Decode (percentDecode (strBytes ctx.rawPath)) with
  | none => .error (Error.new 400 (invalidPathMessage ctx.rawPath) true, ctx)
  | some cs =>
    let path := standardize_path (String.mk cs)
    match trieGet t.static_route path with
    | some handler => mwEnd handler ctx
    | none => dynScan t.dynamic_route path ctx

/-- The `RouteEndpoint`: per-method map of route tables (the `HashMap`
embedded as an association list with first-match lookup and in-place
update, faithful to its `get`/`get_mut`/`insert` uses). -/
structure RouteEndpoint where
  tables : List (Method × RouteTable)

/-- Lookup of a method's table (`HashMap::get`). -/
def assocGet (l : List (Method × RouteTable)) (m : Method) : Option RouteTable :=
  (l.find? (fun e => e.1 = m)).map (fun e => e.2)

/-- In-place update of a method's table (`HashMap::get_mut` mutation). -/
def assocUpdate (l : List (Method × RouteTable)) (m : Method) (t : RouteTable) :
    List (Method × RouteTable) :=
  l.map (fun e => if e.1 = m then (m, t) else e)

/-- `RouteEndpoint::default`: a table for every one of the nine standard
methods. -/
def RouteEndpoint.default : RouteEndpoint :=
  ⟨ALL_METHODS.map (fun m => (m, RouteTable.new))⟩

/-- `RouteEndpoint::insert`: insert into the method's table, creating a fresh
table first when the method has none. -/
def RouteEndpoint.insert (re : RouteEndpoint) (m : Method) (raw : String)
    (endpoint : Middleware Ctx) : Except RouterError RouteEndpoint :=
  match assocGet re.tables m with
  | some t => (t.insert raw endpoint).map (fun t2 => ⟨assocUpdate re.tables m t2⟩)
  | none => (RouteTable.new.insert raw endpoint).map (fun t2 => ⟨(m, t2) :: re.tables⟩)

/-- `Middleware::handle` for `RouteEndpoint`: 405 with an explanatory message
when the request's method has no table, otherwise dispatch through the
method's table; the supplied `next` is never invoked. -/
def RouteEndpoint.handle (re : RouteEndpoint) (ctx : Ctx)
    (_next : Ctx → MRes Ctx) : MRes Ctx :=
  match assocGet re.tables ctx.method with
  | none =>
    .error (throwErr 405 ("method " ++ ctx.method.show ++ " is not allowed"), ctx)
  | some t => t.endOn ctx

/-! ### The `Router` builder (`src/router.rs`) -/

/-- The `Router` builder: its `gate`-registered middlewares and its
registered `(method, path, endpoint)` triples, in registration order. -/
structure Router where
  middlewares : List (Middleware Ctx)
  endpoints : List (Method × String × Middleware Ctx)

/-- `Router::new`. -/
def Router.new : Router := ⟨[], []⟩

/-- `Router::gate`: append a middleware applied to every route of this
router. -/
def Router.gate (r : Router) (m : Middleware Ctx) : Router :=
  { r with middlewares := r.middlewares ++ [m] }

/-- `Router::end`: register one endpoint under each given method. -/
def Router.endAt (r : Router) (methods : List Method) (path : String)
    (endpoint : Middleware Ctx) : Router :=
  { r with endpoints := r.endpoints ++ methods.map (fun m => (m, path, endpoint)) }

/-- `Router::get` (via the `impl_http_method!` macro). -/
def Router.get (r : Router) (path : String) (endpoint : Middleware Ctx) : Router :=
  r.endAt [.GET] path endpoint

/-- `Router::on(prefix)`: every endpoint with the router's middlewares
pre-composed (`join_all(middlewares ++ [endpoint])`) and its path joined
under the prefix. -/
def Router.on (r : Router) (pre : String) :
    List (Method × String × Middleware Ctx) :=
  r.endpoints.map
    (fun e => (e.1, join_path [pre, e.2.1], join_all (r.middlewares ++ [e.2.2])))

/-- The insertion loop of `Router::routes`: insert each resolved triple,
stopping at the first build error. -/
def insertAll (re : RouteEndpoint) :
    List (Method × String × Middleware Ctx) → Except RouterError RouteEndpoint
  | [] => .ok re
  | (m, p, ep) :: rest =>
    match re.insert m p ep with
    | .ok re2 => insertAll re2 rest
    | .error e => .error e

/-- `Router::routes(prefix)`: build the dispatch table from a default
`RouteEndpoint`, failing on the first conflict. -/
def Router.routes (r : Router) (pre : String) : Except RouterError RouteEndpoint :=
  insertAll RouteEndpoint.default (r.on pre)

/-! ### Router parameters (`RouterParam` for `Context`) -/

/-- `Context::try_param`: load the name from the router-variable namespace. -/
def tryParam (ctx : Ctx) (name : String) : Option String :=
  ctx.load routerSymbol name

/-- `Context::param`: a missing required router variable yields a 500
Internal Server Error with a non-exposable message. -/
def param (ctx : Ctx) (name : String) : Except Error String :=
  match tryParam ctx name with
  | some v => .ok v
  | none =>
    .error (Error.new 500 ("router variable `" ++ name ++ "` is required") false)

/-! ### The application shell (`roa-core/src/app.rs`) -/

/-- The inbound request data the shell needs: method and raw target path. -/
structure Request where
  method : Method
  rawPath : String
deriving DecidableEq, Repr

/-- A fresh per-request context (`Context::new`): empty store, default
response (200 OK, empty body). -/
def Ctx.new (req : Request) : Ctx :=
  ⟨req.method, req.rawPath, [], ⟨200, ""⟩⟩

/-- Modelled from the spec: `Response::write_str` writes the error's message
as the body (spec section 4.5); the response module is not under src/. -/
def Response.write_str (r : Response) (s : String) : Response :=
  { r with body := s }

/-- `HttpService::serve`: build a fresh context, run the root middleware with
the terminating `next`; on error, write the error's status code into the
response, write the message as the body when the error is exposable, and
re-raise the error exactly when `need_throw` holds, otherwise return the
built response. -/
def serve (mw : Middleware Ctx) (req : Request) : Except Error Response :=
  match mwEnd mw (Ctx.new req) with
  | .ok c => .ok c.resp
  | .error (e, c) =>
    let c1 : Ctx := { c with resp := { c.resp with status := e.status_code } }
    let c2 : Ctx := if e.expose then { c1 with resp := c1.resp.write_str e.message } else c1
    if e.need_throw then .error e else .ok c2.resp

/-! ### Instrumented middlewares for the ordering claims

To observe execution order, the context is instantiated with a trace of
events: each tagged middleware records a `pre` event, invokes `next`, and
records a `post` event on resume (skipped when `next` errors, as `?`
propagation does). -/

/-- Trace events: pre-`next` body of a tagged layer, post-`next` body, and
the terminal `next`. -/
inductive Ev where
  | pre (tag : Nat)
  | post (tag : Nat)
  | terminal
deriving DecidableEq, Repr

/-- A middleware that records `pre tag`, yields to `next`, then records
`post tag` on successful resume. -/
def tagged (tag : Nat) : Middleware (List Ev) :=
  fun ctx next =>
    match next (ctx ++ [Ev.pre tag]) with
    | .ok c => .ok (c ++ [Ev.post tag])
    | .error e => .error e

/-- A terminal `next` that records its own invocation. -/
def terminalNext (c : List Ev) : MRes (List Ev) :=
  .ok (c ++ [Ev.terminal])

/-! ### Concrete fixtures used by witnesses and counterexamples -/

/-- An endpoint that writes a fixed body into the response. -/
def okBody (s : String) : Middleware Ctx :=
  fun ctx _ => .ok { ctx with resp := { ctx.resp with body := s } }

/-- A router registering `/x` under GET only. -/
def router1 : Router := Router.new.get "/x" (okBody "x")

/-- A DELETE request for the GET-only path `/x`. -/
def ctxDeleteX : Ctx := ⟨.DELETE, "/x", [], ⟨200, ""⟩⟩

/-- A GET request for the unregistered path `/y`. -/
def ctxGetY : Ctx := ⟨.GET, "/y", [], ⟨200, ""⟩⟩

/-- A request with a non-standard extension method. -/
def ctxFoo : Ctx := ⟨.EXT "FOO", "/x", [], ⟨200, ""⟩⟩

/-- A GET request for the registered path `/x`. -/
def ctxGetX : Ctx := ⟨.GET, "/x", [], ⟨200, ""⟩⟩

/-! ### Helper lemmas -/

/-- The name declared by a variable segment, if any. -/
def varName : Segment → Option String
  | .var n => some n
  | .lit _ => none

theorem trieGet_cons {α : Type} (k : String) (v : α) (l : List (String × α))
    (s : String) :
    trieGet ((k, v) :: l) s = if k = s then some v else trieGet l s := by
  by_cases h : k = s <;> simp [trieGet, List.find?, h]

theorem assocGet_cons (k : Method) (v : RouteTable) (l : List (Method × RouteTable))
    (m : Method) :
    assocGet ((k, v) :: l) m = if k = m then some v else assocGet l m := by
  by_cases h : k = m <;> simp [assocGet, List.find?, h]

theorem assocGet_update_self (l : List (Method × RouteTable)) (m : Method)
    (t : RouteTable) (h : (assocGet l m).isSome) :
    assocGet (assocUpdate l m t) m = some t := by
  induction l with
  | nil => simp [assocGet, List.find?] at h
  | cons e rest ih =>
    obtain ⟨k, v⟩ := e
    by_cases he : k = m
    · simp [assocUpdate, assocGet_cons, he]
    · simp only [assocGet_cons, he, if_false] at h
      have := ih h
      simpa [assocUpdate, assocGet_cons, he] using this

theorem assocGet_update_other (l : List (Method × RouteTable)) (m : Method)
    (t : RouteTable) (m2 : Method) (hne : m2 ≠ m) :
    assocGet (assocUpdate l m t) m2 = assocGet l m2 := by
  induction l with
  | nil => simp [assocUpdate, assocGet]
  | cons e rest ih =>
    obtain ⟨k, v⟩ := e
    by_cases he : k = m
    · have hmm : ¬ m = m2 := fun hc => hne hc.symm
      have hkm : ¬ k = m2 := he ▸ hmm
      simpa [assocUpdate, assocGet_cons, he, hmm, hkm] using ih
    · by_cases he2 : k = m2
      · subst he2
        have hk2 : ¬ k = m := he
        simp [assocUpdate, assocGet_cons, hk2]
      · simpa [assocUpdate, assocGet_cons, he, he2] using ih

/-- A route endpoint has a static route registered for a method and path. -/
def hasStatic (re : RouteEndpoint) (m : Method) (s : String) : Prop :=
  ∃ t, assocGet re.tables m = some t ∧ (trieGet t.static_route s).isSome = true

theorem RouteTable.insert_preserves_static (t : RouteTable) (raw : String)
    (ep : Middleware Ctx) (t2 : RouteTable) (s : String)
    (h : t.insert raw ep = .ok t2)
    (hs : (trieGet t.static_route s).isSome = true) :
    (trieGet t2.static_route s).isSome = true := by
  unfold RouteTable.insert at h
  cases hp : parsePath raw with
  | static p =>
    rw [hp] at h
    cases hin : (trieGet t.static_route p).isSome with
    | true => simp [hin] at h
    | false =>
      simp only [hin, Bool.false_eq_true, if_false, Except.ok.injEq] at h
      subst h
      simp only [trieGet_cons]
      by_cases hps : p = s <;> simp [hps, hs]
  | dynamic rp =>
    rw [hp] at h
    simp only [Except.ok.injEq] at h
    subst h
    exact hs

theorem RouteEndpoint.insert_ok_other (re : RouteEndpoint) (m : Method)
    (raw : String) (ep : Middleware Ctx) (re2 : RouteEndpoint) (m2 : Method)
    (h : re.insert m raw ep = .ok re2) (hne : m2 ≠ m) :
    assocGet re2.tables m2 = assocGet re.tables m2 := by
  cases hget : assocGet re.tables m with
  | some t =>
    simp only [RouteEndpoint.insert, hget] at h
    cases hins : t.insert raw ep with
    | ok t2 =>
      rw [hins] at h
      simp only [Except.map, Except.ok.injEq] at h
      subst h
      exact assocGet_update_other _ _ _ _ hne
    | error err => rw [hins] at h; simp [Except.map] at h
  | none =>
    simp only [RouteEndpoint.insert, hget] at h
    cases hins : RouteTable.new.insert raw ep with
    | ok t2 =>
      rw [hins] at h
      simp only [Except.map, Except.ok.injEq] at h
      subst h
      simp only [assocGet_cons]
      rw [if_neg (fun hc => hne hc.symm)]
    | error err => rw [hins] at h; simp [Except.map] at h

theorem RouteEndpoint.insert_preserves_hasStatic (re : RouteEndpoint)
    (m : Method) (raw : String) (ep : Middleware Ctx) (re2 : RouteEndpoint)
    (ms : Method) (s : String)
    (h : re.insert m raw ep = .ok re2) (hh : hasStatic re ms s) :
    hasStatic re2 ms s := by
  obtain ⟨t, hget, hsome⟩ := hh
  by_cases hms : ms = m
  · subst hms
    simp only [RouteEndpoint.insert, hget] at h
    cases hins : t.insert raw ep with
    | ok t2 =>
      rw [hins] at h
      simp only [Except.map, Except.ok.injEq] at h
      subst h
      refine ⟨t2, ?_, RouteTable.insert_preserves_static t raw ep t2 s hins hsome⟩
      exact assocGet_update_self _ _ _ (by simp [hget])
    | error err => rw [hins] at h; simp [Except.map] at h
  · have := RouteEndpoint.insert_ok_other re m raw ep re2 ms h hms
    exact ⟨t, by rw [this, hget], hsome⟩

theorem RouteEndpoint.insert_conflict (re : RouteEndpoint) (m : Method)
    (raw : String) (ep : Middleware Ctx) (s : String)
    (hh : hasStatic re m s) (hp : parsePath raw = .static s) :
    re.insert m raw ep = .error (.conflict s) := by
  obtain ⟨t, hget, hsome⟩ := hh
  simp [RouteEndpoint.insert, RouteTable.insert, hget, hp, hsome, Except.map]

theorem RouteEndpoint.insert_static_creates (re : RouteEndpoint) (m : Method)
    (raw : String) (ep : Middleware Ctx) (re2 : RouteEndpoint) (s : String)
    (h : re.insert m raw ep = .ok re2) (hp : parsePath raw = .static s) :
    hasStatic re2 m s := by
  cases hget : assocGet re.tables m with
  | some t =>
    simp only [RouteEndpoint.insert, RouteTable.insert, hget, hp] at h
    cases hin : (trieGet t.static_route s).isSome with
    | true => simp [hin, Except.map] at h
    | false =>
      simp only [hin, Bool.false_eq_true, if_false, Except.map,
        Except.ok.injEq] at h
      subst h
      refine ⟨_, assocGet_update_self _ _ _ (by simp [hget]), ?_⟩
      simp [trieGet_cons]
  | none =>
    simp only [RouteEndpoint.insert, RouteTable.insert, hget, hp] at h
    simp [RouteTable.new, trieGet, List.find?, Except.map] at h
    subst h
    exact ⟨⟨[(s, ep)], []⟩, by simp [assocGet_cons], by simp [trieGet_cons]⟩

theorem insertAll_error_of_hasStatic (l : List (Method × String × Middleware Ctx))
    (re : RouteEndpoint) (m : Method) (s : String)
    (hh : hasStatic re m s)
    (hmem : ∃ raw ep, (m, raw, ep) ∈ l ∧ parsePath raw = .static s) :
    ∃ q, insertAll re l = .error (.conflict q) := by
  induction l generalizing re with
  | nil => obtain ⟨raw, ep, hmem, _⟩ := hmem; simp at hmem
  | cons e rest ih =>
    obtain ⟨raw, ep, hmem, hp⟩ := hmem
    rcases List.mem_cons.mp hmem with hhead | htail
    · subst hhead
      cases hins : RouteEndpoint.insert re m raw ep with
      | error err =>
        obtain ⟨q⟩ := err
        exact ⟨q, by simp [insertAll, hins]⟩
      | ok re3 =>
        have := RouteEndpoint.insert_conflict re m raw ep s hh hp
        rw [this] at hins
        exact absurd hins (by simp)
    · obtain ⟨m1, raw1, ep1⟩ := e
      cases hins : RouteEndpoint.insert re m1 raw1 ep1 with
      | error err =>
        obtain ⟨q⟩ := err
        exact ⟨q, by simp [insertAll, hins]⟩
      | ok re3 =>
        have hh3 := RouteEndpoint.insert_preserves_hasStatic re m1 raw1 ep1 re3 m s hins hh
        obtain ⟨q, hq⟩ := ih re3 hh3 ⟨raw, ep, htail, hp⟩
        exact ⟨q, by simp [insertAll, hins, hq]⟩

theorem insertAll_append (re : RouteEndpoint)
    (l1 l2 : List (Method × String × Middleware Ctx)) :
    insertAll re (l1 ++ l2) =
      match insertAll re l1 with
      | .ok re2 => insertAll re2 l2
      | .error err => .error err := by
  induction l1 generalizing re with
  | nil => simp [insertAll]
  | cons e rest ih =>
    obtain ⟨m, raw, ep⟩ := e
    cases hins : RouteEndpoint.insert re m raw ep with
    | ok re2 => simp [insertAll, hins, ih]
    | error err => simp [insertAll, hins]

theorem assocGet_default (m : Method) :
    assocGet RouteEndpoint.default.tables m = none ∨
      assocGet RouteEndpoint.default.tables m = some RouteTable.new := by
  cases m <;> simp [assocGet, RouteEndpoint.default, ALL_METHODS, List.find?]

theorem RouteEndpoint.insert_ok_of_new (re : RouteEndpoint) (m : Method)
    (raw : String) (ep : Middleware Ctx)
    (h : assocGet re.tables m = none ∨ assocGet re.tables m = some RouteTable.new) :
    ∃ re2, re.insert m raw ep = .ok re2 := by
  have hnew : ∀ ep2, ∃ t2, RouteTable.new.insert raw ep2 = .ok t2 := by
    intro ep2
    unfold RouteTable.insert
    cases parsePath raw <;> simp [RouteTable.new, trieGet]
  rcases h with h | h <;> obtain ⟨t2, ht2⟩ := hnew ep
  · exact ⟨⟨(m, t2) :: re.tables⟩, by simp [RouteEndpoint.insert, h, ht2, Except.map]⟩
  · exact ⟨⟨assocUpdate re.tables m t2⟩, by simp [RouteEndpoint.insert, h, ht2, Except.map]⟩

theorem endOn_decoded (t : RouteTable) (ctx : Ctx) (cs : List Char)
    (hdec : utf8Decode (percentDecode (strBytes ctx.rawPath)) = some cs) :
    t.endOn ctx =
      match trieGet t.static_route (standardize_path (String.mk cs)) with
      | some handler => mwEnd handler ctx
      | none => dynScan t.dynamic_route (standardize_path (String.mk cs)) ctx := by
  simp [RouteTable.endOn, hdec]

theorem dynScan_cons_some (rp : RegexPath) (h : Middleware Ctx)
    (rest : List (RegexPath × Middleware Ctx)) (p : String) (ctx : Ctx)
    (caps : List (String × String)) (hc : rp.captures p = some caps) :
    dynScan ((rp, h) :: rest) p ctx = mwEnd h (storeCaps ctx rp caps) := by
  simp [dynScan, hc]

theorem dynScan_cons_none (rp : RegexPath) (h : Middleware Ctx)
    (rest : List (RegexPath × Middleware Ctx)) (p : String) (ctx : Ctx)
    (hc : rp.captures p = none) :
    dynScan ((rp, h) :: rest) p ctx = dynScan rest p ctx := by
  simp [dynScan, hc]

theorem dynScan_append_none (l1 l2 : List (RegexPath × Middleware Ctx))
    (p : String) (ctx : Ctx)
    (h : ∀ e ∈ l1, RegexPath.captures e.1 p = none) :
    dynScan (l1 ++ l2) p ctx = dynScan l2 p ctx := by
  induction l1 with
  | nil => simp
  | cons e rest ih =>
    obtain ⟨rp, hh⟩ := e
    rw [List.cons_append, dynScan_cons_none rp hh _ p ctx (h _ (List.mem_cons_self _ _))]
    exact ih (fun e he => h e (List.mem_cons_of_mem _ he))

theorem dynScan_all_none (l : List (RegexPath × Middleware Ctx))
    (p : String) (ctx : Ctx)
    (h : ∀ e ∈ l, RegexPath.captures e.1 p = none) :
    dynScan l p ctx = .error (throwErr 404 "", ctx) := by
  have := dynScan_append_none l [] p ctx h
  simpa [dynScan] using this

theorem tryParam_store_other (ctx : Ctx) (sym name value lookup : String)
    (hne : ¬ (sym = routerSymbol ∧ name = lookup)) :
    tryParam (ctx.storeVar sym name value) lookup = tryParam ctx lookup := by
  simp only [tryParam, Ctx.load, Ctx.storeVar, List.find?]
  rw [show (decide (sym = routerSymbol ∧ name = lookup)) = false by simpa using hne]

theorem tryParam_store_self (ctx : Ctx) (name value : String) :
    tryParam (ctx.storeVar routerSymbol name value) name = some value := by
  simp [tryParam, Ctx.load, Ctx.storeVar, List.find?]

/-- Loading from the store after the capture-storing fold: a declared name
reads back its captured value, any other name reads as before. -/
theorem tryParam_storeFold (caps : List (String × String)) (vars : List String)
    (ctx : Ctx) (name : String) :
    tryParam (vars.foldl (fun c v => c.storeVar routerSymbol v (capGet caps v)) ctx)
        name =
      if name ∈ vars then some (capGet caps name) else tryParam ctx name := by
  induction vars generalizing ctx with
  | nil => simp
  | cons v vs ih =>
    rw [List.foldl_cons, ih]
    by_cases hmem : name ∈ vs
    · simp [hmem]
    · by_cases hv : name = v
      · subst hv
        simp [hmem, tryParam_store_self]
      · have : ¬ (routerSymbol = routerSymbol ∧ v = name) := by
          intro hc
          exact hv hc.2.symm
        simp [hmem, hv, tryParam_store_other ctx _ _ _ _ this]

theorem tryParam_fresh (ctx : Ctx) (name : String)
    (hfresh : ∀ e ∈ ctx.kvStore, e.1 ≠ routerSymbol) :
    tryParam ctx name = none := by
  simp only [tryParam, Ctx.load]
  rw [List.find?_eq_none.mpr]
  · rfl
  · intro e he
    simp only [decide_eq_true_eq, not_and]
    intro hc
    exact absurd hc (hfresh e he)

/-- The keys of a successful match are exactly the declared variable names of
the pattern, in order. -/
theorem matchSegs_keys (segs : List Segment) (xs : List String)
    (caps : List (String × String)) (h : matchSegs segs xs = some caps) :
    caps.map Prod.fst = segs.filterMap varName := by
  induction segs generalizing xs caps with
  | nil =>
    cases xs with
    | nil => simp [matchSegs] at h; simp [h]
    | cons x xs => simp [matchSegs] at h
  | cons seg rest ih =>
    cases seg with
    | lit s =>
      cases xs with
      | nil => simp [matchSegs] at h
      | cons x xs =>
        by_cases hx : x = s
        · simp only [matchSegs, hx, if_true] at h
          simpa [varName] using ih xs caps h
        · simp [matchSegs, hx] at h
    | var n =>
      cases xs with
      | nil => simp [matchSegs] at h
      | cons x xs =>
        simp only [matchSegs, Option.map_eq_some'] at h
        obtain ⟨caps2, hc2, hcaps⟩ := h
        subst hcaps
        simpa [varName] using ih xs caps2 hc2

theorem find?_key_of_mem (caps : List (String × String)) (name : String)
    (h : name ∈ caps.map Prod.fst) :
    ∃ v, caps.find? (fun c => c.1 = name) = some (name, v) := by
  induction caps with
  | nil => simp at h
  | cons c rest ih =>
    obtain ⟨k, v⟩ := c
    by_cases hk : k = name
    · subst hk
      exact ⟨v, by simp [List.find?]⟩
    · simp only [List.map_cons, List.mem_cons] at h
      rcases h with h | h

      · exact absurd h.symm hk
      · obtain ⟨v2, hv2⟩ := ih h
        exact ⟨v2, by simp [List.find?, hk, hv2]⟩

theorem insertAll_two_static (re0 : RouteEndpoint)
    (L1 L2 L3 : List (Method × String × Middleware Ctx)) (m : Method)
    (raw1 : String) (ep1 : Middleware Ctx) (raw2 : String) (ep2 : Middleware Ctx)
    (s : String)
    (hp1 : parsePath raw1 = .static s) (hp2 : parsePath raw2 = .static s) :
    ∃ q, insertAll re0 (L1 ++ ((m, raw1, ep1) :: (L2 ++ ((m, raw2, ep2) :: L3)))) =
      .error (.conflict q) := by
  cases hA : insertAll re0 L1 with
  | error err =>
    obtain ⟨q⟩ := err
    exact ⟨q, by rw [insertAll_append, hA]⟩
  | ok reA =>
    cases hB : RouteEndpoint.insert reA m raw1 ep1 with
    | error err =>
      obtain ⟨q⟩ := err
      exact ⟨q, by rw [insertAll_append, hA]; simp [insertAll, hB]⟩
    | ok reB =>
      have hhs : hasStatic reB m s :=
        RouteEndpoint.insert_static_creates reA m raw1 ep1 reB s hB hp1
      obtain ⟨q, hq⟩ := insertAll_error_of_hasStatic (L2 ++ (m, raw2, ep2) :: L3)
        reB m s hhs ⟨raw2, ep2, by simp, hp2⟩
      exact ⟨q, by rw [insertAll_append, hA]; simp [insertAll, hB, hq]⟩

/-- The two-route instance of static conflict detection: a router registering
exactly two endpoints with the same method whose joined paths normalize to
the same static path fails to build, with the conflict error naming the
path. -/
theorem two_routes_same_method_conflict (pre : String) (m : Method)
    (p1 p2 : String) (h1 h2 : Middleware Ctx) (s : String)
    (hp1 : parsePath (join_path [pre, p1]) = .static s)
    (hp2 : parsePath (join_path [pre, p2]) = .static s) :
    Router.routes ⟨[], [(m, p1, h1), (m, p2, h2)]⟩ pre = .error (.conflict s) := by
  obtain ⟨re1, hre1⟩ := RouteEndpoint.insert_ok_of_new RouteEndpoint.default m
    (join_path [pre, p1]) (join_all [h1]) (assocGet_default m)
  have hhs : hasStatic re1 m s :=
    RouteEndpoint.insert_static_creates _ m _ _ re1 s hre1 hp1
  have hconf := RouteEndpoint.insert_conflict re1 m (join_path [pre, p2])
    (join_all [h2]) s hhs hp2
  simp [Router.routes, Router.on, insertAll, hre1, hconf]

/-! ### The claims -/

/-- C9: composing the empty middleware list via `join_all` yields a
middleware that, for every context and every terminal `next`, immediately
invokes its own `next` exactly once and returns that outcome unchanged
(pass-through identity law). -/
theorem c9_join_all_nil_identity (σ : Type) (ctx : σ) (next : σ → MRes σ) :
    join_all ([] : List (Middleware σ)) ctx next = next ctx := rfl

/-- C2: for every ordered middleware list `[a, b, c]` composed via
`join_all` (and equally via the left-nested `join` chaining that `App::gate`
performs on the empty composite) and run on a fresh context, the pre-`next`
bodies execute in order a, b, c and the post-`next` bodies execute in the
exact reverse order c, b, a, with the terminal `next` in between; no
reordering occurs. -/
theorem c2_cascading_order (a b c : Nat) :
    join_all [tagged a, tagged b, tagged c] [] terminalNext =
      .ok [Ev.pre a, Ev.pre b, Ev.pre c, Ev.terminal,
        Ev.post c, Ev.post b, Ev.post a] ∧
    join (join (join (join_all []) (tagged a)) (tagged b)) (tagged c) []
        terminalNext =
      .ok [Ev.pre a, Ev.pre b, Ev.pre c, Ev.terminal,
        Ev.post c, Ev.post b, Ev.post a] :=
  ⟨rfl, rfl⟩

/-- C1 (amended): a request whose method has no table in the dispatch map is
answered 405 with a message naming the method; however, `RouteEndpoint::default`
gives every one of the nine standard methods an empty table, so for a path
registered only under GET, a DELETE request falls through the empty DELETE
table and yields 404 (not 405); GET on an unregistered path also yields 404;
405 arises exactly for methods with no table (non-standard methods). -/
theorem c1_method_coverage :
    (∀ (re : RouteEndpoint) (ctx : Ctx) (next : Ctx → MRes Ctx),
        assocGet re.tables ctx.method = none →
        re.handle ctx next =
          .error (throwErr 405 ("method " ++ ctx.method.show ++ " is not allowed"),
            ctx)) ∧
    (∀ m ∈ ALL_METHODS,
        assocGet RouteEndpoint.default.tables m = some RouteTable.new) ∧
    (∃ re, router1.routes "/" = Except.ok re ∧
        re.handle ctxDeleteX (fun c => .ok c) = .error (throwErr 404 "", ctxDeleteX) ∧
        re.handle ctxGetY (fun c => .ok c) = .error (throwErr 404 "", ctxGetY) ∧
        re.handle ctxFoo (fun c => .ok c) =
          .error (throwErr 405 "method FOO is not allowed", ctxFoo)) := by
  refine ⟨?_, ?_, ⟨_, rfl, rfl, rfl, rfl⟩⟩
  · intro re ctx next h
    simp [RouteEndpoint.handle, h]
  · intro m hm
    fin_cases hm <;> rfl

theorem c1_witness :
    RouteEndpoint.handle ⟨[]⟩ ctxFoo (fun c => .ok c) =
      .error (throwErr 405 "method FOO is not allowed", ctxFoo) ∧
    assocGet RouteEndpoint.default.tables Method.DELETE = some RouteTable.new :=
  ⟨c1_method_coverage.1 ⟨[]⟩ ctxFoo (fun c => .ok c) rfl,
    c1_method_coverage.2.1 Method.DELETE (by simp [ALL_METHODS])⟩

/-- C1 counterexample: with `/x` registered only under GET, a DELETE request
for `/x` is answered 404, not 405 as the claim states. -/
theorem c1_counterexample :
    ∃ re, router1.routes "/" = Except.ok re ∧
      ∃ e, re.handle ctxDeleteX (fun c => .ok c) = .error (e, ctxDeleteX) ∧
        e.status_code = 404 ∧ e.status_code ≠ 405 := by
  refine ⟨_, rfl, throwErr 404 "", rfl, rfl, by decide⟩

/-- C3: dispatch tries the exact static lookup first and runs the static
handler on a hit; only on a static miss are the dynamic matchers tried, in
registration order with the first successful match winning (its captures
stored before the handler runs); if neither matches, the result is a 404
error. -/
theorem c3_dispatch_precedence (t : RouteTable) (ctx : Ctx) (cs : List Char)
    (p : String)
    (hdec : utf8Decode (percentDecode (strBytes ctx.rawPath)) = some cs)
    (hp : standardize_path (String.mk cs) = p) :
    (∀ h, trieGet t.static_route p = some h → t.endOn ctx = mwEnd h ctx) ∧
    (trieGet t.static_route p = none →
      (∀ l1 rp h l2 caps,
          t.dynamic_route = l1 ++ ((rp, h) :: l2) →
          (∀ e ∈ l1, RegexPath.captures e.1 p = none) →
          rp.captures p = some caps →
          t.endOn ctx = mwEnd h (storeCaps ctx rp caps)) ∧
      ((∀ e ∈ t.dynamic_route, RegexPath.captures e.1 p = none) →
        t.endOn ctx = .error (throwErr 404 "", ctx))) := by
  subst hp
  have he := endOn_decoded t ctx cs hdec
  refine ⟨?_, ?_⟩
  · intro h hh
    rw [he, hh]
  · intro hnone
    have he2 : t.endOn ctx =
        dynScan t.dynamic_route (standardize_path (String.mk cs)) ctx := by
      rw [he, hnone]
    refine ⟨?_, ?_⟩
    · intro l1 rp h l2 caps hdyn hl1 hcaps
      rw [he2, hdyn, dynScan_append_none _ _ _ _ hl1,
        dynScan_cons_some _ _ _ _ _ _ hcaps]
    · intro hall
      rw [he2, dynScan_all_none _ _ _ hall]

/-- A concrete table carrying both the static route `/user/list` and the
dynamic route `/user/:id` under one method. -/
def tableC3 : RouteTable :=
  ⟨[("/user/list", okBody "static")],
    [(⟨[.lit "user", .var "id"], ["id"]⟩, okBody "dynamic")]⟩

theorem c3_witness :
    RouteTable.endOn tableC3 ⟨.GET, "/user/list", [], ⟨200, ""⟩⟩ =
      mwEnd (okBody "static") ⟨.GET, "/user/list", [], ⟨200, ""⟩⟩ ∧
    RouteTable.endOn tableC3 ⟨.GET, "/user/42", [], ⟨200, ""⟩⟩ =
      mwEnd (okBody "dynamic")
        (storeCaps ⟨.GET, "/user/42", [], ⟨200, ""⟩⟩
          ⟨[.lit "user", .var "id"], ["id"]⟩ [("id", "42")]) ∧
    RouteTable.endOn tableC3 ⟨.GET, "/nope", [], ⟨200, ""⟩⟩ =
      .error (throwErr 404 "", ⟨.GET, "/nope", [], ⟨200, ""⟩⟩) :=
  ⟨(c3_dispatch_precedence tableC3 _ ("/user/list".data) "/user/list"
      (by decide) (by decide)).1 (okBody "static") rfl,
    ((c3_dispatch_precedence tableC3 _ ("/user/42".data) "/user/42"
      (by decide) (by decide)).2 rfl).1 []
      ⟨[.lit "user", .var "id"], ["id"]⟩ (okBody "dynamic") [] [("id", "42")]
      rfl (by decide) (by decide),
    ((c3_dispatch_precedence tableC3 _ ("/nope".data) "/nope"
      (by decide) (by decide)).2 rfl).2 (by decide)⟩

/-- C4: registering two distinct static routes with the same method whose
paths normalize to the same static path makes the build step `Router::routes`
fail with a conflict error (so no dispatch table is produced, at
configuration time); for a router registering exactly the two conflicting
routes, the error names the shared normalized path. -/
theorem c4_static_conflict :
    (∀ (r : Router) (pre : String)
        (E1 E2 E3 : List (Method × String × Middleware Ctx)) (m : Method)
        (p1 p2 : String) (h1 h2 : Middleware Ctx) (s : String),
        r.endpoints = E1 ++ ((m, p1, h1) :: (E2 ++ ((m, p2, h2) :: E3))) →
        parsePath (join_path [pre, p1]) = .static s →
        parsePath (join_path [pre, p2]) = .static s →
        ∃ q, r.routes pre = .error (.conflict q)) ∧
    (∀ (pre : String) (m : Method) (p1 p2 : String) (h1 h2 : Middleware Ctx)
        (s : String),
        parsePath (join_path [pre, p1]) = .static s →
        parsePath (join_path [pre, p2]) = .static s →
        Router.routes ⟨[], [(m, p1, h1), (m, p2, h2)]⟩ pre =
          .error (.conflict s)) := by
  refine ⟨?_, two_routes_same_method_conflict⟩
  intro r pre E1 E2 E3 m p1 p2 h1 h2 s hend hp1 hp2
  unfold Router.routes Router.on
  rw [hend, List.map_append, List.map_cons, List.map_append, List.map_cons]
  exact insertAll_two_static RouteEndpoint.default _ _ _ m _ _ _ _ s hp1 hp2

theorem c4_witness :
    Router.routes ⟨[], [(.GET, "/route/endpoint", okBody "a"),
        (.GET, "/route/endpoint", okBody "b")]⟩ "/" =
      .error (.conflict "/route/endpoint") :=
  c4_static_conflict.2 "/" .GET "/route/endpoint" "/route/endpoint"
    (okBody "a") (okBody "b") "/route/endpoint" (by decide) (by decide)

/-- C5: a request whose percent-decoded path is not valid UTF-8 is answered
400 with an exposable message naming the offending raw path, whatever the
route table holds (decoding precedes all matching). -/
theorem c5_invalid_utf8_path (t : RouteTable) (ctx : Ctx)
    (hdec : utf8Decode (percentDecode (strBytes ctx.rawPath)) = none) :
    t.endOn ctx =
      .error (Error.new 400 (invalidPathMessage ctx.rawPath) true, ctx) ∧
    ∃ before after,
      invalidPathMessage ctx.rawPath = before ++ ctx.rawPath ++ after :=
  ⟨by simp [RouteTable.endOn, hdec],
    ⟨utf8ErrorDisplay ++ "\npath `", "` is not a valid utf-8 string", rfl⟩⟩

theorem c5_witness :
    RouteTable.endOn tableC3 ⟨.GET, "/%C2%B7%D3%C9", [], ⟨200, ""⟩⟩ =
      .error (Error.new 400 (invalidPathMessage "/%C2%B7%D3%C9") true,
        ⟨.GET, "/%C2%B7%D3%C9", [], ⟨200, ""⟩⟩) :=
  (c5_invalid_utf8_path tableC3 ⟨.GET, "/%C2%B7%D3%C9", [], ⟨200, ""⟩⟩
    (by decide)).1

/-- C6: when the root middleware returns an error, `HttpService::serve`
writes the error status code into the response, writes the message as the
body exactly when the error is exposable, and re-raises the error if and
only if its kind classifies it as a server-level failure; otherwise it
returns Ok with the built response. -/
theorem c6_serve_error_handling (mw : Middleware Ctx) (req : Request)
    (e : Error) (c : Ctx)
    (h : mwEnd mw (Ctx.new req) = .error (e, c)) :
    (serve mw req = .error e ↔ e.kind = .ServerError) ∧
    (e.kind ≠ .ServerError →
      serve mw req =
        .ok ⟨e.status_code, if e.expose then e.message else c.resp.body⟩) := by
  have hserve : serve mw req =
      (if e.need_throw then .error e
        else Except.ok ⟨e.status_code,
          if e.expose then e.message else c.resp.body⟩) := by
    by_cases he : e.expose <;> simp [serve, h, he, Response.write_str]
  by_cases hk : e.kind = .ServerError
  · refine ⟨⟨fun _ => hk, fun _ => ?_⟩, fun hne => absurd hk hne⟩
    rw [hserve]
    simp [Error.need_throw, hk]
  · constructor
    · rw [hserve]
      simp [Error.need_throw, hk]
    · intro _
      rw [hserve]
      simp [Error.need_throw, hk]

/-- A middleware that fails with a fixed client error. -/
def failWith (e : Error) : Middleware Ctx :=
  fun ctx _ => .error (e, ctx)

theorem c6_witness :
    serve (failWith (Error.new 400 "oops" true)) ⟨.GET, "/"⟩ =
      .ok ⟨400, "oops"⟩ :=
  (c6_serve_error_handling (failWith (Error.new 400 "oops" true)) ⟨.GET, "/"⟩
    (Error.new 400 "oops" true) (Ctx.new ⟨.GET, "/"⟩) rfl).2 (by decide)

/-- C7 (amended): a missing required router variable makes `param` fail with
a 500 Internal Server Error whose message is non-exposable — the code
classifies it as a server-level failure, not as a 4xx client error. -/
theorem c7_missing_param (ctx : Ctx) (name : String)
    (h : tryParam ctx name = none) :
    param ctx name =
      .error (Error.new 500 ("router variable `" ++ name ++ "` is required")
        false) ∧
    (Error.new 500 ("router variable `" ++ name ++ "` is required")
      false).kind = .ServerError ∧
    (Error.new 500 ("router variable `" ++ name ++ "` is required")
      false).expose = false :=
  ⟨by simp [param, h], by simp [Error.kind, Error.new], rfl⟩

theorem c7_witness :
    param ⟨.GET, "/user", [], ⟨200, ""⟩⟩ "id" =
      .error (Error.new 500 ("router variable `" ++ "id" ++ "` is required")
        false) :=
  (c7_missing_param ⟨.GET, "/user", [], ⟨200, ""⟩⟩ "id" rfl).1

/-- C7 counterexample: on a context with no captured variables, `param "id"`
yields status 500 with a non-exposable message — not a 4xx exposable client
error as the claim states. -/
theorem c7_counterexample :
    ∃ e, param ⟨.GET, "/user/0", [], ⟨200, ""⟩⟩ "id" = .error e ∧
      e.status_code = 500 ∧ ¬ (400 ≤ e.status_code ∧ e.status_code < 500) ∧
      e.expose = false := by
  refine ⟨Error.new 500 ("router variable `" ++ "id" ++ "` is required") false,
    rfl, rfl, by decide, rfl⟩

/-- C8: when a dynamic pattern matches the request path, every declared
variable name reads back from the router-variable store with exactly its
captured substring (the store write happens before the handler chain runs),
and an undeclared name reads back as not-found. -/
theorem c8_captured_variables (rp : RegexPath) (p : String)
    (caps : List (String × String)) (ctx : Ctx)
    (hcap : rp.captures p = some caps)
    (hwf : rp.vars = rp.segments.filterMap varName)
    (hfresh : ∀ e ∈ ctx.kvStore, e.1 ≠ routerSymbol) :
    (∀ name ∈ rp.vars, ∃ v,
        caps.find? (fun cp => cp.1 = name) = some (name, v) ∧
        tryParam (storeCaps ctx rp caps) name = some v) ∧
    (∀ name, name ∉ rp.vars → tryParam (storeCaps ctx rp caps) name = none) ∧
    (∀ (h : Middleware Ctx) (rest : List (RegexPath × Middleware Ctx)),
        dynScan ((rp, h) :: rest) p ctx = mwEnd h (storeCaps ctx rp caps)) := by
  have hkeys : caps.map Prod.fst = rp.vars := by
    rw [hwf]
    exact matchSegs_keys rp.segments (pathSegments p) caps hcap
  refine ⟨?_, ?_, ?_⟩
  · intro name hname
    obtain ⟨v, hv⟩ := find?_key_of_mem caps name (by rw [hkeys]; exact hname)
    refine ⟨v, hv, ?_⟩
    unfold storeCaps
    rw [tryParam_storeFold, if_pos hname]
    simp [capGet, hv]
  · intro name hname
    unfold storeCaps
    rw [tryParam_storeFold, if_neg hname, tryParam_fresh ctx name hfresh]
  · intro h rest
    exact dynScan_cons_some rp h rest p ctx caps hcap

theorem c8_witness :
    tryParam (storeCaps ⟨.GET, "/user/42", [], ⟨200, ""⟩⟩
        ⟨[.lit "user", .var "id"], ["id"]⟩ [("id", "42")]) "id" = some "42" ∧
    tryParam (storeCaps ⟨.GET, "/user/42", [], ⟨200, ""⟩⟩
        ⟨[.lit "user", .var "id"], ["id"]⟩ [("id", "42")]) "name" = none := by
  have hc := c8_captured_variables ⟨[.lit "user", .var "id"], ["id"]⟩ "/user/42"
    [("id", "42")] ⟨.GET, "/user/42", [], ⟨200, ""⟩⟩ (by decide) (by decide)
    (by intro e he; simp at he)
  refine ⟨?_, hc.2.1 "name" (by decide)⟩
  obtain ⟨v, hv, hload⟩ := hc.1 "id" (by decide)
  have : v = "42" := by
    have := hv
    simp [List.find?] at this
    exact this.symm
  rw [this] at hload
  exact hload

/-- C10: static-route conflict detection is scoped per method — two routes
for the same path under two distinct methods build successfully, inserting
under one method leaves every other method table unchanged, and the same
path twice under one method is a build-time conflict naming the path. -/
theorem c10_conflict_per_method :
    (∀ (m1 m2 : Method) (p : String) (h1 h2 : Middleware Ctx) (pre : String),
        m1 ≠ m2 →
        ∃ re, Router.routes ⟨[], [(m1, p, h1), (m2, p, h2)]⟩ pre =
          Except.ok re) ∧
    (∀ (re : RouteEndpoint) (m : Method) (raw : String) (ep : Middleware Ctx)
        (re2 : RouteEndpoint) (m2 : Method),
        re.insert m raw ep = .ok re2 → m2 ≠ m →
        assocGet re2.tables m2 = assocGet re.tables m2) ∧
    (∀ (pre : String) (m : Method) (p : String) (h1 h2 : Middleware Ctx)
        (s : String),
        parsePath (join_path [pre, p]) = .static s →
        Router.routes ⟨[], [(m, p, h1), (m, p, h2)]⟩ pre =
          .error (.conflict s)) := by
  refine ⟨?_, RouteEndpoint.insert_ok_other,
    fun pre m p h1 h2 s hp =>
      two_routes_same_method_conflict pre m p p h1 h2 s hp hp⟩
  intro m1 m2 p h1 h2 pre hne
  obtain ⟨re1, hre1⟩ := RouteEndpoint.insert_ok_of_new RouteEndpoint.default m1
    (join_path [pre, p]) (join_all [h1]) (assocGet_default m1)
  have hother : assocGet re1.tables m2 =
      assocGet RouteEndpoint.default.tables m2 :=
    RouteEndpoint.insert_ok_other RouteEndpoint.default m1 _ _ re1 m2 hre1
      (fun hc => hne hc.symm)
  obtain ⟨re2, hre2⟩ := RouteEndpoint.insert_ok_of_new re1 m2
    (join_path [pre, p]) (join_all [h2])
    (by rw [hother]; exact assocGet_default m2)
  exact ⟨re2, by simp [Router.routes, Router.on, insertAll, hre1, hre2]⟩

theorem c10_witness :
    (∃ re, Router.routes ⟨[], [(.GET, "/x", okBody "a"),
        (.POST, "/x", okBody "b")]⟩ "/" = Except.ok re) ∧
    Router.routes ⟨[], [(.GET, "/x", okBody "a"), (.GET, "/x", okBody "b")]⟩
        "/" = .error (.conflict "/x") :=
  ⟨c10_conflict_per_method.1 .GET .POST "/x" (okBody "a") (okBody "b") "/"
      (by decide),
    c10_conflict_per_method.2.2 "/" .GET "/x" (okBody "a") (okBody "b") "/x"
      (by decide)⟩

theorem c2_witness :
    join_all [tagged 1, tagged 2, tagged 3] [] terminalNext =
      .ok [Ev.pre 1, Ev.pre 2, Ev.pre 3, Ev.terminal,
        Ev.post 3, Ev.post 2, Ev.post 1] :=
  (c2_cascading_order 1 2 3).1

theorem c9_witness :
    join_all ([] : List (Middleware (List Ev))) [] terminalNext =
      terminalNext [] :=
  c9_join_all_nil_identity (List Ev) [] terminalNext

end Roa
